import Mathlib

/-!
Shallow embedding of the reconciliation core of personnel-sync.

Go `map[string]string` values are modelled as association lists looked up by
first occurrence; Go's `reflect.DeepEqual` on two such maps is extensional
equality of the lookups, modelled by `attrsEquiv`. Fallible Go functions
returning `(T, error)` are modelled as `T × Option String`. Integer fields
declared `int` in Go are modelled as `Int`.
-/

namespace PersonnelSync

/-- Go `strings.ToLower`: character-wise lower-casing of the string (the keys
compared by the diff are ASCII email addresses, for which this coincides with
Go's Unicode lower-casing). Stated over the character list so that it reduces
inside the kernel. -/
def toLowerStr (s : String) : String := ⟨s.data.map Char.toLower⟩

/-- Go `map[string]string`, as an association list (first occurrence wins). -/
abbrev Attributes := List (String × String)

/-- Go map read `m[k]` together with the `ok` flag: the value at the first
occurrence of key `k`, if any. -/
def lookupAttr : Attributes → String → Option String
  | [], _ => none
  | kv :: rest, k => if kv.1 = k then some kv.2 else lookupAttr rest k

/-- Go map write `m[k] = v`: overwrite the first occurrence of `k`, or append. -/
def insertAttr : Attributes → String → String → Attributes
  | [], k, v => [(k, v)]
  | kv :: rest, k, v => if kv.1 = k then (k, v) :: rest else kv :: insertAttr rest k v

/-- `reflect.DeepEqual` on two Go maps: same keys with the same values, read
extensionally through `lookupAttr`. -/
def attrsEquiv (a b : Attributes) : Bool :=
  (a.all fun kv => lookupAttr b kv.1 == some kv.2) &&
  (b.all fun kv => lookupAttr a kv.1 == some kv.2)

/-- `Person` from types.go: `CompareValue`, `ID`, `Attributes`, `DisableChanges`. -/
structure Person where
  CompareValue : String
  ID : String
  Attributes : Attributes
  DisableChanges : Bool
deriving DecidableEq, Repr

/-- `AttributeMap` from types.go. -/
structure AttributeMap where
  Source : String
  Destination : String
  Required : Bool
  CaseSensitive : Bool
deriving DecidableEq, Repr

/-- `ChangeSet` from types.go. -/
structure ChangeSet where
  Create : List Person
  Update : List Person
  Delete : List Person
deriving DecidableEq, Repr

/-- `ChangeResults`: the three counters plus the run-level error list, as used
by `SyncPeople` (counters are Go `uint64`, incremented only by small amounts,
modelled as `Nat`). -/
structure ChangeResults where
  Created : Nat
  Updated : Nat
  Deleted : Nat
  Errors : List String
deriving DecidableEq, Repr

def PersonIsNotInList : Int := 0
def PersonIsInList : Int := 1
def PersonIsInListButDifferent : Int := 2

/-- `IsPersonInList`: true when the lower-cased compareValue matches the
lower-cased `CompareValue` of some member of the list. -/
def IsPersonInList (compareValue : String) (peopleList : List Person) : Bool :=
  peopleList.any fun person => toLowerStr person.CompareValue == toLowerStr compareValue

/-- `PersonStatusInList`: walks the list and, at the first person whose
lower-cased `CompareValue` matches, reports `PersonIsInListButDifferent` when
`reflect.DeepEqual(attrs, person.Attributes)` fails and `PersonIsInList`
otherwise; reports `PersonIsNotInList` when no person matches. -/
def PersonStatusInList (compareValue : String) (attrs : Attributes) :
    List Person → Int
  | [] => PersonIsNotInList
  | person :: rest =>
    if toLowerStr person.CompareValue == toLowerStr compareValue then
      if !(attrsEquiv attrs person.Attributes) then PersonIsInListButDifferent
      else PersonIsInList
    else PersonStatusInList compareValue attrs rest

/-- `GenerateChangeSet`: the Go loops append each source person (skipping
those with `DisableChanges`) to `Create` when `PersonStatusInList` says
`PersonIsNotInList` and to `Update` when it says `PersonIsInListButDifferent`,
and append each destination person failing `IsPersonInList` against the source
to `Delete`; each loop iteration appends to at most one list, so the three
lists are the corresponding filters in traversal order. -/
def GenerateChangeSet (sourcePeople destinationPeople : List Person) : ChangeSet :=
  { Create := sourcePeople.filter fun sp =>
      !sp.DisableChanges &&
        (PersonStatusInList sp.CompareValue sp.Attributes destinationPeople
          == PersonIsNotInList)
  , Update := sourcePeople.filter fun sp =>
      !sp.DisableChanges &&
        (PersonStatusInList sp.CompareValue sp.Attributes destinationPeople
          == PersonIsInListButDifferent)
  , Delete := destinationPeople.filter fun dp =>
      !(IsPersonInList dp.CompareValue sourcePeople) }

/-- The attribute-building loop inside `RemapToDestinationAttributes`: walk the
attribute map in order; a present source key copies its value under the
destination key, an absent required key sets `disableChanges`, an absent
non-required key does nothing. -/
def remapLoop (personAttrs : Attributes) :
    List AttributeMap → Attributes → Bool → Attributes × Bool
  | [], attrs, disableChanges => (attrs, disableChanges)
  | attrMap :: rest, attrs, disableChanges =>
    match lookupAttr personAttrs attrMap.Source with
    | some value =>
        remapLoop personAttrs rest (insertAttr attrs attrMap.Destination value) disableChanges
    | none =>
        if attrMap.Required then remapLoop personAttrs rest attrs true
        else remapLoop personAttrs rest attrs disableChanges

/-- One iteration of the outer loop of `RemapToDestinationAttributes`: the
output `Person` is built from the compare value, the projected attributes and
the disable flag only (the Go composite literal leaves `ID` at its zero
value). -/
def remapPerson (attributeMap : List AttributeMap) (person : Person) : Person :=
  let built := remapLoop person.Attributes attributeMap [] false
  { CompareValue := person.CompareValue
  , ID := ""
  , Attributes := built.1
  , DisableChanges := built.2 }

/-- `RemapToDestinationAttributes`: projects every source person and returns a
nil error (the Go function's only return is `peopleForDestination, nil`). -/
def RemapToDestinationAttributes (sourcePersons : List Person)
    (attributeMap : List AttributeMap) : List Person × Option String :=
  (sourcePersons.map (remapPerson attributeMap), none)

/-- The `Source` collaborator for one run: the result of its `ListUsers` call,
a person list together with an optional error. -/
structure Source where
  ListUsers : List Person × Option String

/-- The `Destination` collaborator for one run: the result of its `ListUsers`
call and its `ApplyChangeSet` behaviour. -/
structure Destination where
  ListUsers : List Person × Option String
  ApplyChangeSet : ChangeSet → ChangeResults

/-- `SyncPeople`: fetch the source listing, remap it, fetch the destination
listing, diff, and either report the dry-run counts or delegate to the
destination's `ApplyChangeSet`; a listing failure returns only that error. -/
def SyncPeople (source : Source) (destination : Destination)
    (attributeMap : List AttributeMap) (dryRun : Bool) : ChangeResults :=
  match source.ListUsers with
  | (_, some e) => { Created := 0, Updated := 0, Deleted := 0, Errors := [e] }
  | (sourcePeople, none) =>
    match RemapToDestinationAttributes sourcePeople attributeMap with
    | (_, some e) => { Created := 0, Updated := 0, Deleted := 0, Errors := [e] }
    | (remapped, none) =>
      match destination.ListUsers with
      | (_, some e) => { Created := 0, Updated := 0, Deleted := 0, Errors := [e] }
      | (destinationPeople, none) =>
        let changeSet := GenerateChangeSet remapped destinationPeople
        if dryRun then
          { Created := changeSet.Create.length
          , Updated := changeSet.Update.length
          , Deleted := changeSet.Delete.length
          , Errors := [] }
        else destination.ApplyChangeSet changeSet

def DefaultBatchSizePerMinute : Int := 50
def DefaultListClientsPageLimit : Int := 100

/-- The `WebHelpDesk` destination struct (configuration fields). -/
structure WebHelpDesk where
  URL : String
  Username : String
  Password : String
  ListClientsPageLimit : Int
  BatchSizePerMinute : Int
deriving DecidableEq, Repr

/-- `NewWebHelpDeskDesination`, parameterised over the outcome of
`json.Unmarshal` of the config's ExtraJSON (an unmarshal error is returned
with the partially filled struct); on success, a non-positive
`BatchSizePerMinute` becomes `DefaultBatchSizePerMinute` and a zero
`ListClientsPageLimit` becomes `DefaultListClientsPageLimit`. -/
def NewWebHelpDeskDesination (decoded : WebHelpDesk × Option String) :
    WebHelpDesk × Option String :=
  match decoded with
  | (w, some e) => (w, some e)
  | (w, none) =>
    let w1 := if w.BatchSizePerMinute ≤ 0 then
        { w with BatchSizePerMinute := DefaultBatchSizePerMinute } else w
    let w2 := if w1.ListClientsPageLimit = 0 then
        { w1 with ListClientsPageLimit := DefaultListClientsPageLimit } else w1
    (w2, none)

/-- Modelled from the spec: the constant `DestinationTypeGoogleContacts`
checked by `NewGoogleContactsDestination` is declared in a repository file not
present here; only the type-tag string it holds matters. -/
def DestinationTypeGoogleContacts : String := "GoogleContacts"

/-- Modelled from the spec: `DefaultBatchSize` is declared in a repository
file not present here; the spec requires a non-positive configured
operations-per-window value to default to a safe positive constant. -/
def DefaultBatchSize : Int := 10

/-- Modelled from the spec: `DefaultBatchDelaySeconds` is declared in a
repository file not present here; a safe positive window length. -/
def DefaultBatchDelaySeconds : Int := 3

/-- `GoogleContactsConfig` (the `GoogleAuth` blob is opaque to the core and
kept as a string). -/
structure GoogleContactsConfig where
  DelegatedAdminEmail : String
  Domain : String
  GoogleAuth : String
  BatchSize : Int
  BatchDelaySeconds : Int
deriving DecidableEq, Repr

/-- The zero-valued `GoogleContactsConfig`, as carried by the empty
`GoogleContacts{}` struct Go returns on an error path. -/
def emptyGoogleContactsConfig : GoogleContactsConfig :=
  { DelegatedAdminEmail := ""
  , Domain := ""
  , GoogleAuth := ""
  , BatchSize := 0
  , BatchDelaySeconds := 0 }

/-- The defaults block of `NewGoogleContactsDestination`: a non-positive
`BatchSize` becomes `DefaultBatchSize` and a non-positive `BatchDelaySeconds`
becomes `DefaultBatchDelaySeconds`. -/
def googleContactsDefaults (g : GoogleContactsConfig) : GoogleContactsConfig :=
  let g1 := if g.BatchSize ≤ 0 then { g with BatchSize := DefaultBatchSize } else g
  if g1.BatchDelaySeconds ≤ 0 then
    { g1 with BatchDelaySeconds := DefaultBatchDelaySeconds } else g1

/-- `NewGoogleContactsDestination`, parameterised over the outcome of
`json.Unmarshal` of ExtraJSON and of `initGoogleClient` (which performs I/O):
a wrong config type or either failure returns an error; on success the
configuration passes through the defaults block. -/
def NewGoogleContactsDestination (cfgType : String)
    (decoded : GoogleContactsConfig × Option String)
    (clientInitError : GoogleContactsConfig → Option String) :
    GoogleContactsConfig × Option String :=
  if cfgType ≠ DestinationTypeGoogleContacts then
    (emptyGoogleContactsConfig, some ("invalid config type: " ++ cfgType))
  else
    match decoded with
    | (_, some e) => (emptyGoogleContactsConfig, some e)
    | (g, none) =>
      match clientInitError (googleContactsDefaults g) with
      | some e => (emptyGoogleContactsConfig, some e)
      | none => (googleContactsDefaults g, none)

/-! ### Lemmas about the matching primitives -/

theorem isPersonInList_iff (cv : String) (l : List Person) :
    IsPersonInList cv l = true ↔ ∃ p ∈ l, (toLowerStr p.CompareValue) = (toLowerStr cv) := by
  simp [IsPersonInList, List.any_eq_true]

theorem isPersonInList_eq_false_iff (cv : String) (l : List Person) :
    IsPersonInList cv l = false ↔ ∀ p ∈ l, (toLowerStr p.CompareValue) ≠ (toLowerStr cv) := by
  simp [IsPersonInList, List.any_eq_false]

theorem personStatusInList_eq_notInList (cv : String) (attrs : Attributes)
    (l : List Person) :
    PersonStatusInList cv attrs l = PersonIsNotInList ↔
      ∀ p ∈ l, (toLowerStr p.CompareValue) ≠ (toLowerStr cv) := by
  induction l with
  | nil => simp [PersonStatusInList]
  | cons q rest ih =>
    by_cases h : (toLowerStr q.CompareValue) = (toLowerStr cv)
    · by_cases ha : attrsEquiv attrs q.Attributes
      · simp only [PersonStatusInList, h, ha]
        simp [PersonIsInList, PersonIsNotInList, h]
      · simp only [PersonStatusInList, h, ha]
        simp [PersonIsInListButDifferent, PersonIsNotInList, h]
    · simp only [PersonStatusInList]
      simp [h, ih]

theorem personStatusInList_ne_notInList (cv : String) (attrs : Attributes)
    (l : List Person) :
    PersonStatusInList cv attrs l ≠ PersonIsNotInList ↔
      ∃ p ∈ l, (toLowerStr p.CompareValue) = (toLowerStr cv) := by
  rw [Ne, personStatusInList_eq_notInList]
  push_neg
  rfl

theorem mem_create_iff (src dst : List Person) (p : Person) :
    p ∈ (GenerateChangeSet src dst).Create ↔
      p ∈ src ∧ p.DisableChanges = false ∧
        PersonStatusInList p.CompareValue p.Attributes dst = PersonIsNotInList := by
  simp only [GenerateChangeSet]
  rw [List.mem_filter]
  simp [and_assoc]

theorem mem_update_iff (src dst : List Person) (p : Person) :
    p ∈ (GenerateChangeSet src dst).Update ↔
      p ∈ src ∧ p.DisableChanges = false ∧
        PersonStatusInList p.CompareValue p.Attributes dst
          = PersonIsInListButDifferent := by
  simp only [GenerateChangeSet]
  rw [List.mem_filter]
  simp [and_assoc]

theorem mem_delete_iff (src dst : List Person) (p : Person) :
    p ∈ (GenerateChangeSet src dst).Delete ↔
      p ∈ dst ∧ IsPersonInList p.CompareValue src = false := by
  simp only [GenerateChangeSet]
  rw [List.mem_filter]
  simp

/-! ### Claims about the diff engine -/

/-- Claim C1: when no source compareKey matches any destination compareKey
case-insensitively, the change set creates exactly the non-disabled source
persons in source order, deletes the entire destination in destination order,
and updates nobody. -/
theorem generateChangeSet_disjoint_keys (src dst : List Person)
    (h : ∀ sp ∈ src, ∀ dp ∈ dst,
      (toLowerStr sp.CompareValue) ≠ (toLowerStr dp.CompareValue)) :
    (GenerateChangeSet src dst).Create
        = src.filter (fun sp => !sp.DisableChanges) ∧
    (GenerateChangeSet src dst).Update = [] ∧
    (GenerateChangeSet src dst).Delete = dst := by
  have hstat : ∀ sp ∈ src,
      PersonStatusInList sp.CompareValue sp.Attributes dst = PersonIsNotInList := by
    intro sp hsp
    rw [personStatusInList_eq_notInList]
    exact fun dp hdp he => h sp hsp dp hdp he.symm
  refine ⟨?_, ?_, ?_⟩
  · show src.filter _ = src.filter _
    refine List.filter_congr ?_
    intro sp hsp
    simp [hstat sp hsp]
  · show src.filter _ = []
    rw [List.filter_eq_nil_iff]
    intro sp hsp
    simp [hstat sp hsp, PersonIsNotInList, PersonIsInListButDifferent]
  · show dst.filter _ = dst
    rw [List.filter_eq_self]
    intro dp hdp
    have hfalse : IsPersonInList dp.CompareValue src = false := by
      rw [isPersonInList_eq_false_iff]
      exact fun sp hsp => h sp hsp dp hdp
    simp [hfalse]

/-- Claim C1 witness. -/
theorem generateChangeSet_disjoint_keys_witness :
    (∀ sp ∈ [Person.mk "a@x.com" "" [("email", "a@x.com")] false,
             Person.mk "c@x.com" "" [("email", "c@x.com")] true],
      ∀ dp ∈ [Person.mk "b@x.com" "" [("email", "b@x.com")] false],
        (toLowerStr sp.CompareValue) ≠ (toLowerStr dp.CompareValue)) ∧
    (GenerateChangeSet
        [Person.mk "a@x.com" "" [("email", "a@x.com")] false,
         Person.mk "c@x.com" "" [("email", "c@x.com")] true]
        [Person.mk "b@x.com" "" [("email", "b@x.com")] false]).Create
      = [Person.mk "a@x.com" "" [("email", "a@x.com")] false] :=
  ⟨by decide,
   by
    have h := generateChangeSet_disjoint_keys
      [Person.mk "a@x.com" "" [("email", "a@x.com")] false,
       Person.mk "c@x.com" "" [("email", "c@x.com")] true]
      [Person.mk "b@x.com" "" [("email", "b@x.com")] false]
      (by decide)
    rw [h.1]
    decide⟩

/-- Claim C2: with compareKeys unique (case-insensitively) within the source
list and within the destination list, no compareKey occurs in more than one of
the Create, Update, Delete lists. -/
theorem generateChangeSet_lists_key_disjoint (src dst : List Person)
    (_hs : (src.map fun p => (toLowerStr p.CompareValue)).Nodup)
    (_hd : (dst.map fun p => (toLowerStr p.CompareValue)).Nodup) (k : String) :
    ¬((∃ p ∈ (GenerateChangeSet src dst).Create, (toLowerStr p.CompareValue) = k) ∧
       ∃ p ∈ (GenerateChangeSet src dst).Update, (toLowerStr p.CompareValue) = k) ∧
    ¬((∃ p ∈ (GenerateChangeSet src dst).Create, (toLowerStr p.CompareValue) = k) ∧
       ∃ p ∈ (GenerateChangeSet src dst).Delete, (toLowerStr p.CompareValue) = k) ∧
    ¬((∃ p ∈ (GenerateChangeSet src dst).Update, (toLowerStr p.CompareValue) = k) ∧
       ∃ p ∈ (GenerateChangeSet src dst).Delete, (toLowerStr p.CompareValue) = k) := by
  refine ⟨?_, ?_, ?_⟩
  · rintro ⟨⟨p1, hp1, hk1⟩, ⟨p2, hp2, hk2⟩⟩
    rcases (mem_create_iff src dst p1).mp hp1 with ⟨-, -, hstat1⟩
    rcases (mem_update_iff src dst p2).mp hp2 with ⟨-, -, hstat2⟩
    have hne : PersonStatusInList p2.CompareValue p2.Attributes dst
        ≠ PersonIsNotInList := by
      rw [hstat2]; decide
    rcases (personStatusInList_ne_notInList _ _ _).mp hne with ⟨dp, hdp, hmatch⟩
    rw [personStatusInList_eq_notInList] at hstat1
    exact hstat1 dp hdp (hmatch.trans (hk2.trans hk1.symm))
  · rintro ⟨⟨p1, hp1, hk1⟩, ⟨p2, hp2, hk2⟩⟩
    rcases (mem_create_iff src dst p1).mp hp1 with ⟨-, -, hstat1⟩
    rcases (mem_delete_iff src dst p2).mp hp2 with ⟨hp2d, -⟩
    rw [personStatusInList_eq_notInList] at hstat1
    exact hstat1 p2 hp2d (hk2.trans hk1.symm)
  · rintro ⟨⟨p1, hp1, hk1⟩, ⟨p2, hp2, hk2⟩⟩
    rcases (mem_update_iff src dst p1).mp hp1 with ⟨hp1s, -, -⟩
    rcases (mem_delete_iff src dst p2).mp hp2 with ⟨-, hnot⟩
    rw [isPersonInList_eq_false_iff] at hnot
    exact hnot p1 hp1s (hk1.trans hk2.symm)

/-- Claim C2 witness. -/
theorem generateChangeSet_lists_key_disjoint_witness :
    ([Person.mk "a@x.com" "" [] false].map fun p => (toLowerStr p.CompareValue)).Nodup ∧
    ¬((∃ p ∈ (GenerateChangeSet [Person.mk "a@x.com" "" [] false]
          [Person.mk "b@x.com" "" [] false]).Create,
        (toLowerStr p.CompareValue) = "a@x.com") ∧
       ∃ p ∈ (GenerateChangeSet [Person.mk "a@x.com" "" [] false]
          [Person.mk "b@x.com" "" [] false]).Update,
        (toLowerStr p.CompareValue) = "a@x.com") :=
  ⟨by decide,
   (generateChangeSet_lists_key_disjoint
      [Person.mk "a@x.com" "" [] false] [Person.mk "b@x.com" "" [] false]
      (by decide) (by decide) "a@x.com").1⟩

/-- Claim C3: presence classification by both `IsPersonInList` and
`PersonStatusInList` holds exactly when some list member's `CompareValue`
equals the probed value after lower-casing both sides; concretely, a source
person keyed "User@Example.com" matches a destination person keyed
"user@example.com" and lands in neither Create nor Delete. -/
theorem matching_is_case_insensitive :
    (∀ (cv : String) (l : List Person),
        IsPersonInList cv l = true ↔
          ∃ p ∈ l, (toLowerStr p.CompareValue) = (toLowerStr cv)) ∧
    (∀ (cv : String) (attrs : Attributes) (l : List Person),
        PersonStatusInList cv attrs l ≠ PersonIsNotInList ↔
          ∃ p ∈ l, (toLowerStr p.CompareValue) = (toLowerStr cv)) ∧
    (GenerateChangeSet
        [Person.mk "User@Example.com" "" [("email", "user@example.com")] false]
        [Person.mk "user@example.com" "" [("email", "user@example.com")] false]).Create
      = [] ∧
    (GenerateChangeSet
        [Person.mk "User@Example.com" "" [("email", "user@example.com")] false]
        [Person.mk "user@example.com" "" [("email", "user@example.com")] false]).Delete
      = [] :=
  ⟨isPersonInList_iff, personStatusInList_ne_notInList, by decide, by decide⟩

/-- Claim C4: a source person with `DisableChanges` set never appears in
Create or Update, and a destination person whose compareKey matches it
case-insensitively never appears in Delete. -/
theorem generateChangeSet_disabled_person (src dst : List Person) (sp : Person)
    (hmem : sp ∈ src) (hdis : sp.DisableChanges = true) :
    sp ∉ (GenerateChangeSet src dst).Create ∧
    sp ∉ (GenerateChangeSet src dst).Update ∧
    ∀ dp ∈ dst, (toLowerStr dp.CompareValue) = (toLowerStr sp.CompareValue) →
      dp ∉ (GenerateChangeSet src dst).Delete := by
  refine ⟨?_, ?_, ?_⟩
  · intro hc
    rcases (mem_create_iff src dst sp).mp hc with ⟨-, hdis2, -⟩
    rw [hdis] at hdis2
    exact Bool.noConfusion hdis2
  · intro hc
    rcases (mem_update_iff src dst sp).mp hc with ⟨-, hdis2, -⟩
    rw [hdis] at hdis2
    exact Bool.noConfusion hdis2
  · intro dp hdp hkey hc
    rcases (mem_delete_iff src dst dp).mp hc with ⟨-, hnot⟩
    rw [isPersonInList_eq_false_iff] at hnot
    exact hnot sp hmem hkey.symm

/-- Claim C4 witness. -/
theorem generateChangeSet_disabled_person_witness :
    Person.mk "A@x.com" "" [] true ∈ [Person.mk "A@x.com" "" [] true] ∧
    Person.mk "A@x.com" "" [] true
      ∉ (GenerateChangeSet [Person.mk "A@x.com" "" [] true]
          [Person.mk "b@x.com" "" [] false]).Create :=
  ⟨by decide,
   (generateChangeSet_disabled_person [Person.mk "A@x.com" "" [] true]
      [Person.mk "b@x.com" "" [] false]
      (Person.mk "A@x.com" "" [] true) (by decide) (by decide)).1⟩

/-! ### Lemmas about attribute maps -/

theorem lookupAttr_insertAttr (m : Attributes) (k v k2 : String) :
    lookupAttr (insertAttr m k v) k2
      = if k = k2 then some v else lookupAttr m k2 := by
  induction m with
  | nil => simp [insertAttr, lookupAttr]
  | cons kv rest ih =>
    rw [insertAttr]
    by_cases h1 : kv.1 = k
    · rw [if_pos h1]
      by_cases h2 : k = k2
      · rw [lookupAttr, if_pos h2, if_pos h2]
      · have h3 : kv.1 ≠ k2 := fun he => h2 (h1.symm.trans he)
        rw [lookupAttr, if_neg h2, if_neg h2, lookupAttr, if_neg h3]
    · rw [if_neg h1, lookupAttr]
      by_cases h3 : kv.1 = k2
      · have h2 : k ≠ k2 := fun he => h1 (h3.trans he.symm)
        rw [if_pos h3, if_neg h2, lookupAttr, if_pos h3]
      · rw [if_neg h3, ih]
        by_cases h2 : k = k2
        · rw [if_pos h2, if_pos h2]
        · rw [if_neg h2, if_neg h2, lookupAttr, if_neg h3]

theorem mem_of_lookupAttr_eq_some (m : Attributes) (k v : String)
    (h : lookupAttr m k = some v) : (k, v) ∈ m := by
  induction m with
  | nil => simp [lookupAttr] at h
  | cons kv rest ih =>
    by_cases h1 : kv.1 = k
    · rw [lookupAttr, if_pos h1] at h
      have h2 : kv.2 = v := Option.some.inj h
      rw [← h1, ← h2]
      exact List.mem_cons_self kv rest
    · rw [lookupAttr, if_neg h1] at h
      exact List.mem_cons_of_mem _ (ih h)

theorem lookupAttr_eq_some_of_mem (m : Attributes) (k v : String)
    (hnd : (m.map Prod.fst).Nodup) (hmem : (k, v) ∈ m) :
    lookupAttr m k = some v := by
  induction m with
  | nil => cases hmem
  | cons kv rest ih =>
    rw [List.map_cons, List.nodup_cons] at hnd
    rcases List.mem_cons.mp hmem with h | h
    · rw [← h]
      simp [lookupAttr]
    · have h1 : kv.1 ≠ k := by
        intro he
        apply hnd.1
        rw [he]
        exact List.mem_map_of_mem Prod.fst h
      rw [lookupAttr, if_neg h1]
      exact ih hnd.2 h

theorem attrsEquiv_iff (a b : Attributes)
    (ha : (a.map Prod.fst).Nodup) (hb : (b.map Prod.fst).Nodup) :
    attrsEquiv a b = true ↔ ∀ k, lookupAttr a k = lookupAttr b k := by
  rw [attrsEquiv, Bool.and_eq_true, List.all_eq_true, List.all_eq_true]
  constructor
  · rintro ⟨h1, h2⟩ k
    cases hk : lookupAttr a k with
    | some v =>
      have hv := h1 (k, v) (mem_of_lookupAttr_eq_some a k v hk)
      rw [beq_iff_eq] at hv
      exact hv.symm
    | none =>
      cases hk2 : lookupAttr b k with
      | some w =>
        have hw := h2 (k, w) (mem_of_lookupAttr_eq_some b k w hk2)
        rw [beq_iff_eq] at hw
        rw [hk] at hw
        cases hw
      | none => rfl
  · intro h
    constructor
    · rintro ⟨k1, v1⟩ hkv
      rw [beq_iff_eq, ← h k1]
      exact lookupAttr_eq_some_of_mem a k1 v1 ha hkv
    · rintro ⟨k1, v1⟩ hkv
      rw [beq_iff_eq, h k1]
      exact lookupAttr_eq_some_of_mem b k1 v1 hb hkv

theorem personStatusInList_of_match (cv : String) (attrs : Attributes)
    (dst : List Person) (dp : Person)
    (hd : (dst.map fun p => toLowerStr p.CompareValue).Nodup)
    (hdp : dp ∈ dst) (hk : toLowerStr dp.CompareValue = toLowerStr cv) :
    PersonStatusInList cv attrs dst
      = if attrsEquiv attrs dp.Attributes then PersonIsInList
        else PersonIsInListButDifferent := by
  induction dst with
  | nil => cases hdp
  | cons q rest ih =>
    rw [List.map_cons, List.nodup_cons] at hd
    by_cases hq : toLowerStr q.CompareValue = toLowerStr cv
    · have hqdp : q = dp := by
        rcases List.mem_cons.mp hdp with h | h
        · exact h.symm
        · exfalso
          apply hd.1
          have h2 : toLowerStr q.CompareValue = toLowerStr dp.CompareValue :=
            hq.trans hk.symm
          rw [h2]
          exact List.mem_map_of_mem _ h
      subst hqdp
      cases hae : attrsEquiv attrs q.Attributes <;>
        simp [PersonStatusInList, hq, hae]
    · have hdprest : dp ∈ rest := by
        rcases List.mem_cons.mp hdp with h | h
        · exact absurd (h ▸ hk) hq
        · exact h
      simp only [PersonStatusInList]
      rw [if_neg (by simp [hq])]
      exact ih hd.2 hdprest

/-! ### Lemmas about the remap loop -/

theorem remapLoop_disable_mono (personAttrs : Attributes)
    (maps : List AttributeMap) (attrs : Attributes) :
    (remapLoop personAttrs maps attrs true).2 = true := by
  induction maps generalizing attrs with
  | nil => rfl
  | cons am rest ih =>
    rw [remapLoop]
    cases lookupAttr personAttrs am.Source with
    | some v => exact ih _
    | none =>
      by_cases hr : am.Required <;> simp only [hr, if_true, if_false] <;> exact ih _

theorem remapLoop_disables (personAttrs : Attributes) (maps : List AttributeMap)
    (attrs : Attributes) (dis : Bool)
    (h : ∃ am ∈ maps, am.Required = true ∧ lookupAttr personAttrs am.Source = none) :
    (remapLoop personAttrs maps attrs dis).2 = true := by
  induction maps generalizing attrs dis with
  | nil => rcases h with ⟨am, hm, -⟩; cases hm
  | cons am0 rest ih =>
    rcases h with ⟨am, hm, hreq, habs⟩
    rcases List.mem_cons.mp hm with he | hrest
    · subst he
      rw [remapLoop, habs, hreq, if_pos rfl]
      exact remapLoop_disable_mono personAttrs rest attrs
    · rw [remapLoop]
      cases lookupAttr personAttrs am0.Source with
      | some v => exact ih _ _ ⟨am, hrest, hreq, habs⟩
      | none =>
        by_cases hr : am0.Required
        · rw [if_pos hr]
          exact remapLoop_disable_mono personAttrs rest attrs
        · rw [if_neg hr]
          exact ih _ _ ⟨am, hrest, hreq, habs⟩

theorem remapLoop_omits (personAttrs : Attributes) (maps : List AttributeMap)
    (attrs : Attributes) (dis : Bool) (d : String)
    (h : ∀ am ∈ maps, am.Destination = d → lookupAttr personAttrs am.Source = none) :
    lookupAttr (remapLoop personAttrs maps attrs dis).1 d = lookupAttr attrs d := by
  induction maps generalizing attrs dis with
  | nil => rfl
  | cons am0 rest ih =>
    rw [remapLoop]
    cases hl : lookupAttr personAttrs am0.Source with
    | some v =>
      have hd0 : am0.Destination ≠ d := by
        intro he
        rw [h am0 (List.mem_cons_self am0 rest) he] at hl
        cases hl
      rw [ih _ _ (fun am hm => h am (List.mem_cons_of_mem am0 hm)),
        lookupAttr_insertAttr, if_neg hd0]
    | none =>
      by_cases hr : am0.Required
      · rw [if_pos hr]
        exact ih _ _ fun am hm => h am (List.mem_cons_of_mem am0 hm)
      · rw [if_neg hr]
        exact ih _ _ fun am hm => h am (List.mem_cons_of_mem am0 hm)

/-! ### Claims about the attribute projector -/

/-- Claim C5: the projector never errors; a person missing a required mapped
source attribute comes out with `DisableChanges` set; with distinct
destination keys, an absent non-required source key leaves its destination key
out of the output attributes; and the compare value passes through. -/
theorem remapToDestinationAttributes_contract (sourcePersons : List Person)
    (attributeMap : List AttributeMap) (p : Person) (_hp : p ∈ sourcePersons)
    (hdest : (attributeMap.map fun am => am.Destination).Nodup) :
    (RemapToDestinationAttributes sourcePersons attributeMap).2 = none ∧
    (RemapToDestinationAttributes sourcePersons attributeMap).1
      = sourcePersons.map (remapPerson attributeMap) ∧
    (remapPerson attributeMap p).CompareValue = p.CompareValue ∧
    ((∃ am ∈ attributeMap, am.Required = true ∧
        lookupAttr p.Attributes am.Source = none) →
      (remapPerson attributeMap p).DisableChanges = true) ∧
    (∀ am ∈ attributeMap, am.Required = false →
      lookupAttr p.Attributes am.Source = none →
      lookupAttr (remapPerson attributeMap p).Attributes am.Destination = none) := by
  refine ⟨rfl, rfl, rfl, ?_, ?_⟩
  · intro h
    exact remapLoop_disables p.Attributes attributeMap [] false h
  · intro am hm hreq habs
    have h : ∀ am2 ∈ attributeMap, am2.Destination = am.Destination →
        lookupAttr p.Attributes am2.Source = none := by
      intro am2 hm2 he
      have : am2 = am :=
        List.inj_on_of_nodup_map hdest hm2 hm he
      rw [this]
      exact habs
    exact remapLoop_omits p.Attributes attributeMap [] false am.Destination h

/-- Claim C5 witness. -/
theorem remapToDestinationAttributes_contract_witness :
    Person.mk "a@x.com" "id9" [("mail", "a@x.com")] false
        ∈ [Person.mk "a@x.com" "id9" [("mail", "a@x.com")] false] ∧
    ([AttributeMap.mk "mail" "email" true false,
      AttributeMap.mk "first" "firstName" true false].map
        fun am => am.Destination).Nodup ∧
    ((RemapToDestinationAttributes
        [Person.mk "a@x.com" "id9" [("mail", "a@x.com")] false]
        [AttributeMap.mk "mail" "email" true false,
         AttributeMap.mk "first" "firstName" true false]).2 = none ∧
      (RemapToDestinationAttributes
        [Person.mk "a@x.com" "id9" [("mail", "a@x.com")] false]
        [AttributeMap.mk "mail" "email" true false,
         AttributeMap.mk "first" "firstName" true false]).1
        = [Person.mk "a@x.com" "id9" [("mail", "a@x.com")] false].map
            (remapPerson [AttributeMap.mk "mail" "email" true false,
              AttributeMap.mk "first" "firstName" true false]) ∧
      (remapPerson [AttributeMap.mk "mail" "email" true false,
          AttributeMap.mk "first" "firstName" true false]
          (Person.mk "a@x.com" "id9" [("mail", "a@x.com")] false)).CompareValue
        = (Person.mk "a@x.com" "id9" [("mail", "a@x.com")] false).CompareValue ∧
      ((∃ am ∈ [AttributeMap.mk "mail" "email" true false,
          AttributeMap.mk "first" "firstName" true false], am.Required = true ∧
          lookupAttr (Person.mk "a@x.com" "id9" [("mail", "a@x.com")] false).Attributes
            am.Source = none) →
        (remapPerson [AttributeMap.mk "mail" "email" true false,
            AttributeMap.mk "first" "firstName" true false]
            (Person.mk "a@x.com" "id9" [("mail", "a@x.com")] false)).DisableChanges
          = true) ∧
      (∀ am ∈ [AttributeMap.mk "mail" "email" true false,
          AttributeMap.mk "first" "firstName" true false], am.Required = false →
        lookupAttr (Person.mk "a@x.com" "id9" [("mail", "a@x.com")] false).Attributes
          am.Source = none →
        lookupAttr (remapPerson [AttributeMap.mk "mail" "email" true false,
            AttributeMap.mk "first" "firstName" true false]
            (Person.mk "a@x.com" "id9" [("mail", "a@x.com")] false)).Attributes
          am.Destination = none)) :=
  ⟨by decide, by decide,
   remapToDestinationAttributes_contract
      [Person.mk "a@x.com" "id9" [("mail", "a@x.com")] false]
      [AttributeMap.mk "mail" "email" true false,
       AttributeMap.mk "first" "firstName" true false]
      (Person.mk "a@x.com" "id9" [("mail", "a@x.com")] false)
      (by decide) (by decide)⟩

/-- Claim C6: for a non-disabled source person and the destination person
matching its compareKey case-insensitively (destination keys being unique),
membership in Update is exactly structural inequality of the two attribute
maps; in particular a destination attribute key absent from the source
attributes forces the person into Update. -/
theorem update_iff_attributes_differ (src dst : List Person) (sp dp : Person)
    (hd : (dst.map fun p => toLowerStr p.CompareValue).Nodup)
    (hsp : sp ∈ src) (hen : sp.DisableChanges = false) (hdp : dp ∈ dst)
    (hk : toLowerStr dp.CompareValue = toLowerStr sp.CompareValue)
    (has : (sp.Attributes.map Prod.fst).Nodup)
    (had : (dp.Attributes.map Prod.fst).Nodup) :
    (sp ∈ (GenerateChangeSet src dst).Update ↔
      ¬∀ k, lookupAttr sp.Attributes k = lookupAttr dp.Attributes k) ∧
    ((∃ kv ∈ dp.Attributes, lookupAttr sp.Attributes kv.1 = none) →
      sp ∈ (GenerateChangeSet src dst).Update) := by
  have hstat := personStatusInList_of_match sp.CompareValue sp.Attributes dst dp hd hdp hk
  have hiff : sp ∈ (GenerateChangeSet src dst).Update ↔
      ¬∀ k, lookupAttr sp.Attributes k = lookupAttr dp.Attributes k := by
    rw [mem_update_iff]
    constructor
    · rintro ⟨-, -, h2⟩
      rw [hstat] at h2
      intro hall
      rw [if_pos ((attrsEquiv_iff _ _ has had).mpr hall)] at h2
      cases h2
    · intro hne
      refine ⟨hsp, hen, ?_⟩
      rw [hstat, if_neg ?_]
      intro he
      exact hne ((attrsEquiv_iff _ _ has had).mp he)
  refine ⟨hiff, ?_⟩
  rintro ⟨kv, hkv, habs⟩
  rw [hiff]
  intro hall
  have := lookupAttr_eq_some_of_mem dp.Attributes kv.1 kv.2 had (by simpa using hkv)
  rw [← hall kv.1, habs] at this
  cases this

/-- Claim C6 witness. -/
theorem update_iff_attributes_differ_witness :
    Person.mk "a@x.com" "" [("email", "a@x.com")] false
        ∈ [Person.mk "a@x.com" "" [("email", "a@x.com")] false] ∧
    (Person.mk "a@x.com" "" [("email", "a@x.com")] false
        ∈ (GenerateChangeSet [Person.mk "a@x.com" "" [("email", "a@x.com")] false]
            [Person.mk "A@x.com" "u7" [("email", "a@x.com"), ("where", "hq")] false]).Update ↔
      ¬∀ k, lookupAttr [("email", "a@x.com")] k
          = lookupAttr [("email", "a@x.com"), ("where", "hq")] k) :=
  ⟨by decide,
   (update_iff_attributes_differ
      [Person.mk "a@x.com" "" [("email", "a@x.com")] false]
      [Person.mk "A@x.com" "u7" [("email", "a@x.com"), ("where", "hq")] false]
      (Person.mk "a@x.com" "" [("email", "a@x.com")] false)
      (Person.mk "A@x.com" "u7" [("email", "a@x.com"), ("where", "hq")] false)
      (by decide) (by decide) (by decide) (by decide) (by decide)
      (by decide) (by decide)).1⟩

/-- Claim C10: every person produced by the projector has an empty `ID`; the
Go composite literal builds the output from the compare value, the projected
attributes and the disable flag only. -/
theorem remap_output_id_empty (sourcePersons : List Person)
    (attributeMap : List AttributeMap) (p : Person)
    (hp : p ∈ (RemapToDestinationAttributes sourcePersons attributeMap).1) :
    p.ID = "" := by
  rcases List.mem_map.mp hp with ⟨q, -, rfl⟩
  rfl

/-- Claim C10 witness. -/
theorem remap_output_id_empty_witness :
    Person.mk "a@x.com" "" [] false
        ∈ (RemapToDestinationAttributes [Person.mk "a@x.com" "zz9" [] false] []).1 ∧
    (Person.mk "a@x.com" "" [] false).ID = "" :=
  ⟨by decide,
   remap_output_id_empty [Person.mk "a@x.com" "zz9" [] false] []
      (Person.mk "a@x.com" "" [] false) (by decide)⟩

/-! ### Claims about the orchestrator and the constructors -/

/-- Claim C7: in dry-run mode with both listings succeeding, `SyncPeople`
returns exactly the three diff-list lengths with no errors, and the result
does not depend on the destination's `ApplyChangeSet` at all. -/
theorem syncPeople_dryRun (source : Source) (destination : Destination)
    (attributeMap : List AttributeMap)
    (hs : source.ListUsers.2 = none) (hd : destination.ListUsers.2 = none) :
    (SyncPeople source destination attributeMap true
      = { Created := (GenerateChangeSet
            (RemapToDestinationAttributes source.ListUsers.1 attributeMap).1
            destination.ListUsers.1).Create.length
        , Updated := (GenerateChangeSet
            (RemapToDestinationAttributes source.ListUsers.1 attributeMap).1
            destination.ListUsers.1).Update.length
        , Deleted := (GenerateChangeSet
            (RemapToDestinationAttributes source.ListUsers.1 attributeMap).1
            destination.ListUsers.1).Delete.length
        , Errors := [] }) ∧
    ∀ f : ChangeSet → ChangeResults,
      SyncPeople source { ListUsers := destination.ListUsers, ApplyChangeSet := f }
          attributeMap true
        = SyncPeople source destination attributeMap true := by
  rcases hsl : source.ListUsers with ⟨sl, se⟩
  rcases hdl : destination.ListUsers with ⟨dl, de⟩
  rw [hsl] at hs
  rw [hdl] at hd
  simp only at hs hd
  subst hs
  subst hd
  constructor
  · simp [SyncPeople, hsl, hdl, RemapToDestinationAttributes]
  · intro f
    simp [SyncPeople, hsl, hdl, RemapToDestinationAttributes]

/-- Claim C7 witness. -/
theorem syncPeople_dryRun_witness :
    (Source.mk ([Person.mk "a@x.com" "" [("mail", "a@x.com")] false], none)).ListUsers.2
        = none ∧
    (Destination.mk ([], none) (fun _ => ChangeResults.mk 9 9 9 [])).ListUsers.2
        = none ∧
    SyncPeople (Source.mk ([Person.mk "a@x.com" "" [("mail", "a@x.com")] false], none))
        (Destination.mk ([], none) (fun _ => ChangeResults.mk 9 9 9 []))
        [AttributeMap.mk "mail" "email" true false] true
      = { Created := (GenerateChangeSet
            (RemapToDestinationAttributes
              (Source.mk ([Person.mk "a@x.com" "" [("mail", "a@x.com")] false],
                none)).ListUsers.1
              [AttributeMap.mk "mail" "email" true false]).1
            (Destination.mk ([], none)
              (fun _ => ChangeResults.mk 9 9 9 [])).ListUsers.1).Create.length
        , Updated := (GenerateChangeSet
            (RemapToDestinationAttributes
              (Source.mk ([Person.mk "a@x.com" "" [("mail", "a@x.com")] false],
                none)).ListUsers.1
              [AttributeMap.mk "mail" "email" true false]).1
            (Destination.mk ([], none)
              (fun _ => ChangeResults.mk 9 9 9 [])).ListUsers.1).Update.length
        , Deleted := (GenerateChangeSet
            (RemapToDestinationAttributes
              (Source.mk ([Person.mk "a@x.com" "" [("mail", "a@x.com")] false],
                none)).ListUsers.1
              [AttributeMap.mk "mail" "email" true false]).1
            (Destination.mk ([], none)
              (fun _ => ChangeResults.mk 9 9 9 [])).ListUsers.1).Delete.length
        , Errors := [] } :=
  ⟨rfl, rfl,
   (syncPeople_dryRun
      (Source.mk ([Person.mk "a@x.com" "" [("mail", "a@x.com")] false], none))
      (Destination.mk ([], none) (fun _ => ChangeResults.mk 9 9 9 []))
      [AttributeMap.mk "mail" "email" true false] rfl rfl).1⟩

/-- Claim C8: a failing source listing makes `SyncPeople` return that error
with zero counters, independently of the entire destination collaborator; a
failing destination listing (with the source succeeding) does the same,
independently of the destination's `ApplyChangeSet`. -/
theorem syncPeople_listing_failure (source : Source) (destination : Destination)
    (attributeMap : List AttributeMap) (dryRun : Bool) (e : String) :
    (source.ListUsers.2 = some e →
      SyncPeople source destination attributeMap dryRun
          = { Created := 0, Updated := 0, Deleted := 0, Errors := [e] } ∧
      ∀ destination2 : Destination,
        SyncPeople source destination2 attributeMap dryRun
          = SyncPeople source destination attributeMap dryRun) ∧
    (source.ListUsers.2 = none → destination.ListUsers.2 = some e →
      SyncPeople source destination attributeMap dryRun
          = { Created := 0, Updated := 0, Deleted := 0, Errors := [e] } ∧
      ∀ f : ChangeSet → ChangeResults,
        SyncPeople source { ListUsers := destination.ListUsers, ApplyChangeSet := f }
            attributeMap dryRun
          = SyncPeople source destination attributeMap dryRun) := by
  rcases hsl : source.ListUsers with ⟨sl, se⟩
  rcases hdl : destination.ListUsers with ⟨dl, de⟩
  constructor
  · intro hs
    simp only at hs
    subst hs
    constructor
    · simp [SyncPeople, hsl]
    · intro destination2
      rcases hdl2 : destination2.ListUsers with ⟨dl2, de2⟩
      simp [SyncPeople, hsl, hdl2]
  · intro hs hd
    simp only at hs hd
    subst hs
    subst hd
    constructor
    · simp [SyncPeople, hsl, hdl, RemapToDestinationAttributes]
    · intro f
      simp [SyncPeople, hsl, hdl, RemapToDestinationAttributes]

/-- Claim C8 witness. -/
theorem syncPeople_listing_failure_witness :
    (Source.mk ([], some "connection refused")).ListUsers.2 = some "connection refused" ∧
    SyncPeople (Source.mk ([], some "connection refused"))
        (Destination.mk ([], none) (fun _ => ChangeResults.mk 9 9 9 [])) [] false
      = { Created := 0, Updated := 0, Deleted := 0, Errors := ["connection refused"] } :=
  ⟨rfl,
   ((syncPeople_listing_failure (Source.mk ([], some "connection refused"))
      (Destination.mk ([], none) (fun _ => ChangeResults.mk 9 9 9 [])) [] false
      "connection refused").1 rfl).1⟩

/-- Claim C9: both constructors replace a non-positive configured
operations-per-window value by the fixed positive default
(`DefaultBatchSizePerMinute` for WebHelpDesk, `DefaultBatchSize` for Google
Contacts), so a successfully constructed destination never carries a
non-positive per-window limit. -/
theorem constructors_default_batch_size
    (decodedW : WebHelpDesk × Option String) (cfgType : String)
    (decodedG : GoogleContactsConfig × Option String)
    (clientInitError : GoogleContactsConfig → Option String) :
    (decodedW.2 = none →
      0 < (NewWebHelpDeskDesination decodedW).1.BatchSizePerMinute ∧
      (decodedW.1.BatchSizePerMinute ≤ 0 →
        (NewWebHelpDeskDesination decodedW).1.BatchSizePerMinute
          = DefaultBatchSizePerMinute)) ∧
    ((NewGoogleContactsDestination cfgType decodedG clientInitError).2 = none →
      0 < (NewGoogleContactsDestination cfgType decodedG clientInitError).1.BatchSize ∧
      (decodedG.1.BatchSize ≤ 0 →
        (NewGoogleContactsDestination cfgType decodedG clientInitError).1.BatchSize
          = DefaultBatchSize)) := by
  have hgd : ∀ g : GoogleContactsConfig,
      0 < (googleContactsDefaults g).BatchSize ∧
      (g.BatchSize ≤ 0 → (googleContactsDefaults g).BatchSize = DefaultBatchSize) := by
    intro g
    simp only [googleContactsDefaults]
    split <;> split <;> simp_all [DefaultBatchSize]
  constructor
  · rcases decodedW with ⟨w, we⟩
    intro hw
    simp only at hw
    subst hw
    simp only [NewWebHelpDeskDesination]
    split <;> split <;> simp_all [DefaultBatchSizePerMinute]
  · rcases decodedG with ⟨g, ge⟩
    intro hg
    cases ge with
    | some e =>
      by_cases ht : cfgType ≠ DestinationTypeGoogleContacts
      · rw [NewGoogleContactsDestination, if_pos ht] at hg
        exact Option.noConfusion hg
      · rw [NewGoogleContactsDestination, if_neg ht] at hg
        exact Option.noConfusion hg
    | none =>
      by_cases ht : cfgType ≠ DestinationTypeGoogleContacts
      · rw [NewGoogleContactsDestination, if_pos ht] at hg
        exact Option.noConfusion hg
      · rw [NewGoogleContactsDestination, if_neg ht] at hg ⊢
        cases hci : clientInitError (googleContactsDefaults g) with
        | some e =>
          simp only [hci] at hg
          exact Option.noConfusion hg
        | none =>
          simp only [hci]
          exact ⟨(hgd g).1, fun hb => (hgd g).2 hb⟩

/-- Claim C9 witness. -/
theorem constructors_default_batch_size_witness :
    ((WebHelpDesk.mk "https://whd.example.com" "admin" "key" 0 0,
        (none : Option String)).2 = none) ∧
    0 < (NewWebHelpDeskDesination
        (WebHelpDesk.mk "https://whd.example.com" "admin" "key" 0 0,
          none)).1.BatchSizePerMinute ∧
    ((NewWebHelpDeskDesination
        (WebHelpDesk.mk "https://whd.example.com" "admin" "key" 0 0,
          none)).1.BatchSizePerMinute = DefaultBatchSizePerMinute) :=
  ⟨rfl,
   ((constructors_default_batch_size
      (WebHelpDesk.mk "https://whd.example.com" "admin" "key" 0 0, none)
      DestinationTypeGoogleContacts (emptyGoogleContactsConfig, none)
      (fun _ => none)).1 rfl).1,
   ((constructors_default_batch_size
      (WebHelpDesk.mk "https://whd.example.com" "admin" "key" 0 0, none)
      DestinationTypeGoogleContacts (emptyGoogleContactsConfig, none)
      (fun _ => none)).1 rfl).2 (by decide)⟩

end PersonnelSync
